import Mathlib

/-!
# Verification of the PSF computation engine

This file embeds the numerical core of the repository in Lean 4 and proves
properties of it:

* `src/backend/psf_calculator_pure.py` — pupil-function synthesis, Fourier
  propagation (`np.fft.ifftshift` / `np.fft.ifft2` / `np.fft.fftshift`),
  energy normalization, and the calculator's mutable state
  (`last_params`, `_step_im_microns`).
* `src/frontend/utils/validators.py` — `validate_row_params`.
* `src/frontend/utils/calculations.py` — `calculate_step_params`,
  `calculate_strehl_ratio`.
* `src/frontend/handlers/compute_handler.py` — `compute_row` (validation
  before computation) and `compute_system_psf` (chained convolution).

Arrays of side `N` are embedded as functions `Fin N → Fin N → ℝ` (or `ℂ`);
Python floats are modelled as exact real numbers `ℝ` in the backend pipeline
(which uses transcendental functions) and as exact rationals `ℚ` in the
frontend utilities (which use only field arithmetic and `max`).
-/

open scoped BigOperators

noncomputable section

/-! ## Backend: `src/backend/psf_calculator_pure.py` -/

/-- numpy's `arctan2(y, x)`: the angle of the point `(x, y)`, in `(-π, π]`.
The source calls `np.arctan2(X, Y)`, i.e. its first argument is the
y-coordinate.  `Complex.arg ⟨x, y⟩` implements exactly this convention. -/
def arctan2 (y x : ℝ) : ℝ := Complex.arg ⟨x, y⟩

/-- The centered grid coordinate `coords[i] = (i - size // 2) * step_pupil`
(line 92 of `psf_calculator_pure.py`). -/
def gridCoord (N : ℕ) (step : ℝ) (i : Fin N) : ℝ :=
  ((i.val : ℝ) - ((N / 2 : ℕ) : ℝ)) * step

/-- `PSFCalculator._calc_pupil_function` (lines 82-110).  With
`X, Y = np.meshgrid(coords, coords)` the entry at row `i`, column `j` has
`X = coords[j]`, `Y = coords[i]`.  The result is
`np.exp(1j * W) * mask` where `mask = (rho2 <= 1.0)` and
`W = 2π (defocus (2 rho2 - 1) + astigmatism rho2 cos(2 phi))`,
`phi = arctan2(X, Y)`. -/
def calc_pupil_function (N : ℕ) (step_pupil defocus astigmatism : ℝ)
    (i j : Fin N) : ℂ :=
  let X : ℝ := gridCoord N step_pupil j
  let Y : ℝ := gridCoord N step_pupil i
  let rho2 : ℝ := X ^ 2 + Y ^ 2
  let phi : ℝ := arctan2 X Y
  let W : ℝ := 2 * Real.pi *
    (defocus * (2 * rho2 - 1) + astigmatism * rho2 * Real.cos (2 * phi))
  Complex.exp (Complex.I * (W : ℂ)) * (if rho2 ≤ 1 then 1 else 0)

/-- Index shift of `np.fft.ifftshift` on an axis of length `N`:
`ifftshift(a)[i] = a[(i + N/2) % N]` (numpy rolls by `-(N // 2)`). -/
def ifftshiftIdx {N : ℕ} (i : Fin N) : Fin N :=
  i + ⟨N / 2, Nat.div_lt_self i.pos one_lt_two⟩

/-- Index shift of `np.fft.fftshift` on an axis of length `N`:
`fftshift(a)[i] = a[(i - N/2) % N]` (numpy rolls by `N // 2`). -/
def fftshiftIdx {N : ℕ} (i : Fin N) : Fin N :=
  i - ⟨N / 2, Nat.div_lt_self i.pos one_lt_two⟩

/-- `np.fft.ifftshift` on a square 2-D array. -/
def npIfftshift2 (N : ℕ) (A : Fin N → Fin N → ℂ) (i j : Fin N) : ℂ :=
  A (ifftshiftIdx i) (ifftshiftIdx j)

/-- `np.fft.fftshift` on a square 2-D array. -/
def npFftshift2 (N : ℕ) (A : Fin N → Fin N → ℂ) (i j : Fin N) : ℂ :=
  A (fftshiftIdx i) (fftshiftIdx j)

/-- The unit-root factor `exp(2πi k / N)` appearing in `np.fft.ifft2`. -/
def twiddle (N : ℕ) (k : ℤ) : ℂ :=
  Complex.exp (2 * (Real.pi : ℂ) * Complex.I * (k : ℂ) / (N : ℂ))

/-- `np.fft.ifft2` on a square array:
`ifft2(A)[m1, m2] = (1/N²) Σ_{j1 j2} A[j1, j2] exp(2πi (m1 j1 + m2 j2)/N)`. -/
def npIfft2 (N : ℕ) (A : Fin N → Fin N → ℂ) (m1 m2 : Fin N) : ℂ :=
  (1 / (N : ℂ) ^ 2) *
    ∑ j1, ∑ j2, A j1 j2 * twiddle N ((m1.val * j1.val + m2.val * j2.val : ℕ) : ℤ)

/-- The parameter record of `PSFCalculator.compute` (its keyword arguments,
also the dataclass `PSFParams`; defaults in the source are
`512, 0.555, 0.5, 1.0, 0.0, 0.0, 8.0`). -/
structure PSFParams where
  size : ℕ
  wavelength : ℝ
  back_aperture : ℝ
  magnification : ℝ
  defocus : ℝ
  astigmatism : ℝ
  diam_pupil : ℝ

/-- `step_pupil = diam_pupil / size` (line 49). -/
def stepPupil (p : PSFParams) : ℝ := p.diam_pupil / (p.size : ℝ)

/-- `step_obj_can = 1.0 / (step_pupil * size)` (line 50). -/
def stepObjCan (p : PSFParams) : ℝ := 1 / (stepPupil p * (p.size : ℝ))

/-- `step_im_can = step_obj_can` (line 51). -/
def stepImCan (p : PSFParams) : ℝ := stepObjCan p

/-- `_step_im_microns = step_im_can * wavelength / back_aperture` (line 54). -/
def stepImMicrons (p : PSFParams) : ℝ :=
  stepImCan p * p.wavelength / p.back_aperture

/-- The complex field of `PSFCalculator.compute` (lines 62-68):
`fftshift(ifft2(ifftshift(pupil)))` rescaled by `step_pupil / step_obj_can`. -/
def fieldFn (p : PSFParams) (m1 m2 : Fin p.size) : ℂ :=
  npFftshift2 p.size
      (npIfft2 p.size
        (npIfftshift2 p.size
          (calc_pupil_function p.size (stepPupil p) p.defocus p.astigmatism)))
      m1 m2 *
    ((stepPupil p / stepObjCan p : ℝ) : ℂ)

/-- `intensity = np.abs(field) ** 2` (line 71). -/
def rawIntensity (p : PSFParams) (m1 m2 : Fin p.size) : ℝ :=
  Complex.abs (fieldFn p m1 m2) ^ 2

/-- `total_energy = np.sum(intensity)` (line 74). -/
def totalEnergy (p : PSFParams) : ℝ := ∑ m1, ∑ m2, rawIntensity p m1 m2

/-- The normalization step (lines 74-78 of `psf_calculator_pure.py`, and, with
the same guard, lines 190-193 of `compute_handler.py`):
if the total is `> 0` divide every element by it, otherwise return the array
unchanged. -/
def normalizeEnergy (N : ℕ) (I : Fin N → Fin N → ℝ) : Fin N → Fin N → ℝ :=
  if 0 < ∑ a, ∑ b, I a b then (fun i j => I i j / ∑ a, ∑ b, I a b) else I

/-- The array returned by `PSFCalculator.compute` (pure part; the method also
updates calculator state, see `CalcState.compute`). -/
def computePSF (p : PSFParams) : Fin p.size → Fin p.size → ℝ :=
  normalizeEnergy p.size (rawIntensity p)

/-- The mutable state of a `PSFCalculator` instance:
`last_pupil`, `last_params`, `_step_im_microns` (lines 21-24). -/
structure CalcState where
  last_pupil : Option ((n : ℕ) × (Fin n → Fin n → ℂ))
  last_params : Option PSFParams
  step_im_microns : ℝ

/-- `PSFCalculator.__init__`: `last_pupil = None`, `last_params = None`,
`_step_im_microns = 0.0`. -/
def CalcState.init : CalcState := ⟨none, none, 0⟩

/-- `PSFCalculator.compute` (lines 26-80): returns the PSF array and the
updated instance state. -/
def CalcState.compute (s : CalcState) (p : PSFParams) :
    (Fin p.size → Fin p.size → ℝ) × CalcState :=
  -- `aperture = magnification * back_aperture` (line 48) is computed by the
  -- source but never used afterwards.
  (computePSF p,
    { last_pupil :=
        some ⟨p.size, calc_pupil_function p.size (stepPupil p) p.defocus p.astigmatism⟩
      last_params := some p
      step_im_microns := stepImMicrons p })

/-- `PSFCalculator.get_step_microns` (lines 125-128): raises `RuntimeError`
when no computation has been performed, otherwise returns
`_step_im_microns`. -/
def CalcState.get_step_microns (s : CalcState) : Except String ℝ :=
  match s.last_params with
  | none => Except.error "No computation performed yet"
  | some _ => Except.ok s.step_im_microns

/-- `get_last_error` of `psf_calculator_pure.py` (lines 156-157): the module's
error channel, which always reports the empty string. -/
def get_last_error : String := ""

end

/-! ## Frontend: `src/frontend/utils/validators.py`,
`src/frontend/utils/calculations.py`,
`src/frontend/handlers/compute_handler.py` -/

/-- The numeric fields of `OpticalSystemRow`
(`src/frontend/models/optical_row.py`).  The result fields (`psf_data`,
`strehl_ratio`, `status`, `error_message`, `compute_time`) play no role in
the functions verified here and are omitted. -/
structure OpticalSystemRow where
  wavelength : ℚ
  back_aperture : ℚ
  magnification : ℚ
  defocus : ℚ
  astigmatism : ℚ
  sample_size : ℕ
  step_obj_can : ℚ
  step_obj_microns : ℚ
  step_im_can : ℚ
  step_im_microns : ℚ
  diam_pupil : ℚ
  step_pupil : ℚ
  deriving DecidableEq

/-- `validate_row_params` (validators.py lines 9-27).  `main.py` defines no
`OpticalLimits` class, so `from main import OpticalLimits` always raises
`ImportError` and the function always takes its basic-validation branch. -/
def validate_row_params (row : OpticalSystemRow) : Bool × String :=
  if row.wavelength ≤ 0 then (false, "Wavelength must be positive (> 0)")
  else if row.back_aperture ≤ 0 then (false, "NA must be positive (> 0)")
  else if row.magnification ≤ 0 then (false, "Magnification must be positive (> 0)")
  else if row.diam_pupil ≤ 0 then (false, "Pupil diameter must be positive (> 0)")
  else (true, "")

/-- The `dict` returned by `calculate_step_params`
(keys `diam_pupil, step_pupil, step_obj_can, step_im_can,
step_obj_microns, step_im_microns`). -/
structure StepParams where
  diam_pupil : ℚ
  step_pupil : ℚ
  step_obj_can : ℚ
  step_im_can : ℚ
  step_obj_microns : ℚ
  step_im_microns : ℚ
  deriving DecidableEq

/-- `calculate_step_params` (calculations.py lines 8-93).  Unknown
`source_param` values yield the empty dict, modelled as `none`.
Python's literal `0.001` is the exact rational `1/1000`. -/
def calculate_step_params (row : OpticalSystemRow)
    (source_param source_units : String) : Option StepParams :=
  let sample_size : ℚ := (row.sample_size : ℚ)
  let wavelength : ℚ := max row.wavelength (1 / 1000)
  let back_aperture : ℚ := max row.back_aperture (1 / 1000)
  let magnification : ℚ := max row.magnification (1 / 1000)
  let aperture : ℚ := magnification * back_aperture
  -- each branch produces (diam_pupil, step_pupil, step_obj_can, step_im_can)
  let base : Option (ℚ × ℚ × ℚ × ℚ) :=
    if source_param = "Diam pupil" then
      let diam_pupil := max row.diam_pupil (1 / 1000)
      let step_pupil := diam_pupil / max sample_size 1
      let step_im_can := 1 / max (step_pupil * sample_size) (1 / 1000)
      some (diam_pupil, step_pupil, step_im_can, step_im_can)
    else if source_param = "Step pupil" then
      let step_pupil := max row.step_pupil (1 / 1000)
      let diam_pupil := step_pupil * sample_size
      let step_im_can := 1 / max (step_pupil * sample_size) (1 / 1000)
      some (diam_pupil, step_pupil, step_im_can, step_im_can)
    else if source_param = "Step object" then
      let step_obj_can :=
        if source_units = "c.u." then max row.step_obj_can (1 / 1000)
        else (max row.step_obj_microns (1 / 1000)) * aperture / wavelength
      let step_pupil := 1 / max (step_obj_can * sample_size) (1 / 1000)
      let diam_pupil := step_pupil * sample_size
      some (diam_pupil, step_pupil, step_obj_can, step_obj_can)
    else if source_param = "Step image" then
      let step_im_can :=
        if source_units = "c.u." then max row.step_im_can (1 / 1000)
        else (max row.step_im_microns (1 / 1000)) * back_aperture / wavelength
      let step_pupil := 1 / max (step_im_can * sample_size) (1 / 1000)
      let diam_pupil := step_pupil * sample_size
      some (diam_pupil, step_pupil, step_im_can, step_im_can)
    else none
  base.map fun b =>
    { diam_pupil := b.1
      step_pupil := b.2.1
      step_obj_can := b.2.2.1
      step_im_can := b.2.2.2
      -- lines 89-90: microns from canonical units
      step_obj_microns := b.2.2.1 * wavelength / aperture
      step_im_microns := b.2.2.2 * wavelength / back_aperture }

noncomputable section

/-- `calculate_strehl_ratio` (calculations.py lines 96-119) on a square array
of side `n`; `psf_data.size` is the pixel count `n * n`, the center index is
`n // 2`.  The `psf_data is None or psf_data.size == 0` guard returns `0`. -/
def calculate_strehl_ratio (n : ℕ) (psf : Fin n → Fin n → ℝ) : ℝ :=
  if h : 0 < n then
    let c : Fin n := ⟨n / 2, Nat.div_lt_self h one_lt_two⟩
    let center_intensity := psf c c
    let total_energy := ∑ i, ∑ j, psf i j
    let avg_intensity := total_energy / ((n * n : ℕ) : ℝ)
    if 0 < avg_intensity then center_intensity / avg_intensity else 0
  else 0

/-- The full linear convolution of two `N × N` arrays (zero-padded), the
mathematical content of `scipy.signal.fftconvolve` in exact arithmetic:
`full[k1, k2] = Σ_{a1+b1=k1, a2+b2=k2} A[a1, a2] B[b1, b2]`. -/
def convFull (N : ℕ) (A B : Fin N → Fin N → ℝ) (k1 k2 : ℕ) : ℝ :=
  ∑ a1, ∑ a2, ∑ b1, ∑ b2,
    if a1.val + b1.val = k1 ∧ a2.val + b2.val = k2 then A a1 a2 * B b1 b2 else 0

/-- `fftconvolve(A, B, mode='same')`: the central `N × N` part of the full
convolution, `same[i, j] = full[i + (N-1)/2, j + (N-1)/2]`. -/
def fftconvolveSame (N : ℕ) (A B : Fin N → Fin N → ℝ) (i j : Fin N) : ℝ :=
  convFull N A B (i.val + (N - 1) / 2) (j.val + (N - 1) / 2)

/-- `ComputeHandler.compute_system_psf` (compute_handler.py lines 176-196),
restricted to its numerical content: given the rows' PSF arrays it returns
`none` when the row list is empty (`if not self.parent.table_rows: return` —
an early return, no exception), otherwise it folds
`result = normalize(fftconvolve(result, row_psf, mode='same'))` over the tail,
starting from the first row's PSF. -/
def compute_system_psf (N : ℕ) (psfs : List (Fin N → Fin N → ℝ)) :
    Option (Fin N → Fin N → ℝ) :=
  match psfs with
  | [] => none
  | first :: rest =>
      some (rest.foldl (fun acc q => normalizeEnergy N (fftconvolveSame N acc q)) first)

/-- `OpticalSystemRow.get_params` (optical_row.py lines 35-45): the keyword
arguments passed to `PSFCalculator.compute` (ℚ row fields become the engine's
real-valued parameters). -/
def OpticalSystemRow.get_params (row : OpticalSystemRow) : PSFParams :=
  { size := row.sample_size
    wavelength := (row.wavelength : ℝ)
    back_aperture := (row.back_aperture : ℝ)
    magnification := (row.magnification : ℝ)
    defocus := (row.defocus : ℝ)
    astigmatism := (row.astigmatism : ℝ)
    diam_pupil := (row.diam_pupil : ℝ) }

/-- Outcome of `ComputeHandler.compute_row` (compute_handler.py lines 27-58)
for a single row: either validation fails and an error is surfaced before any
computation, or a `PSFComputeThread` is started with `row.get_params()`. -/
inductive RowComputeOutcome where
  | validationError (msg : String)
  | started (params : PSFParams)

/-- `ComputeHandler.compute_row`, restricted to its per-row logic:
validate first; on failure surface the error (no computation), otherwise
start the computation with the row's parameters. -/
def compute_row (row : OpticalSystemRow) : RowComputeOutcome :=
  let v := validate_row_params row
  if v.1 then RowComputeOutcome.started row.get_params
  else RowComputeOutcome.validationError v.2

end

/-! ## Fixtures for witnesses and counterexamples -/

/-- Fixture: a small valid parameter set (size 2, unaberrated pupil of
diameter 2). -/
noncomputable def pFix : PSFParams := ⟨2, 1, 1, 1, 0, 0, 2⟩

/-- Fixture: a row whose user-supplied pupil diameter is the invalid value
`-1`. -/
def rowBad : OpticalSystemRow :=
  { wavelength := 0.555, back_aperture := 1.2, magnification := 100,
    defocus := 0, astigmatism := 0, sample_size := 512,
    step_obj_can := 0, step_obj_microns := 0, step_im_can := 0,
    step_im_microns := 0, diam_pupil := -1, step_pupil := 0 }

/-- Fixture for the unit-conversion round trip: a row with `diam_pupil = 8`,
`sample_size = 512` and given wavelength and numerical aperture. -/
def roundTripRow (w na : ℚ) : OpticalSystemRow :=
  { wavelength := w, back_aperture := na, magnification := 1,
    defocus := 0, astigmatism := 0, sample_size := 512,
    step_obj_can := 0, step_obj_microns := 0, step_im_can := 0,
    step_im_microns := 0, diam_pupil := 8, step_pupil := 0 }

/-! ## Claims about energy normalization and calculator state -/


/-- Claim C1: for every valid parameter set, the array returned by
`PSFCalculator.compute` sums to `1` exactly (hence within `1e-9` relative
tolerance) whenever the total intensity before normalization is positive;
when that total is zero the raw unnormalized intensity is returned. -/
theorem computePSF_sum_one_unless_zero (p : PSFParams)
    (hsize : 0 < p.size) (hw : 0 < p.wavelength) (hna : 0 < p.back_aperture)
    (hmag : 0 < p.magnification) (hdiam : 0 < p.diam_pupil) :
    (0 < totalEnergy p → ∑ m1, ∑ m2, computePSF p m1 m2 = 1) ∧
    (totalEnergy p = 0 → computePSF p = rawIntensity p) := by
  constructor
  · intro h
    have h' : 0 < ∑ a, ∑ b, rawIntensity p a b := h
    have hne : (∑ a, ∑ b, rawIntensity p a b) ≠ 0 := ne_of_gt h'
    simp only [computePSF, normalizeEnergy]
    rw [if_pos h']
    simp only [← Finset.sum_div]
    exact div_self hne
  · intro h0
    have h0' : ¬ (0 < ∑ a, ∑ b, rawIntensity p a b) := by
      rw [show (∑ a, ∑ b, rawIntensity p a b) = totalEnergy p from rfl, h0]
      exact lt_irrefl 0
    simp only [computePSF, normalizeEnergy]
    rw [if_neg h0']

/-- Witness for claim C1, at the concrete parameter set `pFix`. -/
theorem computePSF_sum_one_unless_zero_witness :
    (0 < totalEnergy pFix → ∑ m1, ∑ m2, computePSF pFix m1 m2 = 1) ∧
    (totalEnergy pFix = 0 → computePSF pFix = rawIntensity pFix) :=
  computePSF_sum_one_unless_zero pFix (by norm_num [pFix]) (by norm_num [pFix])
    (by norm_num [pFix]) (by norm_num [pFix]) (by norm_num [pFix])

/-- Claim C4 (amended): when the input intensity sums to zero the
normalization step returns the array unchanged, and no degenerate-result
condition is signalled anywhere — the function's value is the only outcome
(no exception is raised) and the module's error channel `get_last_error`
reports the empty string. -/
theorem normalizeEnergy_zero_sum (N : ℕ) (I : Fin N → Fin N → ℝ)
    (h : ∑ a, ∑ b, I a b = 0) :
    normalizeEnergy N I = I ∧ get_last_error = "" := by
  refine ⟨?_, rfl⟩
  simp only [normalizeEnergy]
  rw [if_neg]
  rw [h]
  exact lt_irrefl 0

/-- Witness for claim C4's amended theorem: the all-zero `1 × 1` array. -/
theorem normalizeEnergy_zero_sum_witness :
    normalizeEnergy 1 (fun _ _ => (0 : ℝ)) = (fun _ _ => (0 : ℝ)) ∧
    get_last_error = "" :=
  normalizeEnergy_zero_sum 1 (fun _ _ => 0) (by simp)

/-- Counterexample for claim C4 as stated: on the all-zero `2 × 2` intensity
array the normalization step of `PSFCalculator.compute` silently returns the
unchanged array — there is no flagged result: the returned value is the bare
array itself and the error channel `get_last_error` stays empty, so no
degenerate-result condition distinguishable from a successful normalization
is signalled to the caller. -/
theorem normalize_zero_sum_silent :
    normalizeEnergy 2 (fun _ _ => (0 : ℝ)) = (fun _ _ => (0 : ℝ)) ∧
    get_last_error = "" := by
  refine ⟨?_, rfl⟩
  simp [normalizeEnergy]

/-- Claim C10: `get_step_microns` on a freshly constructed calculator raises
`RuntimeError("No computation performed yet")`; after any `compute` call it
returns the physical image-plane step
`step_im_can * wavelength / back_aperture` of the most recent computation. -/
theorem get_step_microns_spec :
    CalcState.init.get_step_microns =
      Except.error "No computation performed yet" ∧
    ∀ (s : CalcState) (p : PSFParams),
      ((s.compute p).2).get_step_microns =
        Except.ok (1 / (p.diam_pupil / (p.size : ℝ) * (p.size : ℝ)) *
          p.wavelength / p.back_aperture) := by
  exact ⟨rfl, fun s p => rfl⟩

/-! ## Claims about the system-PSF composition -/

/-- Counterexample for claim C6 as stated: invoking the system-PSF
composition on an empty row list does not raise any error — the handler's
`if not self.parent.table_rows: return` path returns silently (`none` here:
no system PSF is produced and no exception path exists in the source). -/
theorem compute_system_psf_empty_silent :
    compute_system_psf 1 ([] : List (Fin 1 → Fin 1 → ℝ)) = none := rfl

/-- Claim C6 (amended): `compute_system_psf` yields no result exactly on the
empty element sequence, and it does so by returning early and silently
(no raised error, no retry) — for every non-empty sequence it produces a
system PSF. -/
theorem compute_system_psf_none_iff (N : ℕ)
    (psfs : List (Fin N → Fin N → ℝ)) :
    compute_system_psf N psfs = none ↔ psfs = [] := by
  cases psfs <;> simp [compute_system_psf]

/-- Claim C7: the system-PSF composition of a single-element sequence
containing one normalized PSF returns that PSF unchanged. -/
theorem compute_system_psf_single (N : ℕ) (psf : Fin N → Fin N → ℝ)
    (hnorm : ∑ i, ∑ j, psf i j = 1) :
    compute_system_psf N [psf] = some psf := rfl

/-- Witness for claim C7: the normalized `1 × 1` PSF `[[1]]`. -/
theorem compute_system_psf_single_witness :
    compute_system_psf 1 [fun _ _ => (1 : ℝ)] = some (fun _ _ => (1 : ℝ)) :=
  compute_system_psf_single 1 (fun _ _ => 1) (by simp)

/-- Claim C9: for a non-empty square PSF array of side `n` with positive
total sum, the quality score of `calculate_strehl_ratio` equals
`psf[n/2, n/2] / (sum / n²)` — central-pixel intensity over mean intensity,
not the textbook Strehl ratio (no ideal diffraction-limited reference PSF
enters the computation). -/
theorem calculate_strehl_ratio_spec (n : ℕ) (psf : Fin n → Fin n → ℝ)
    (hn : 0 < n) (hsum : 0 < ∑ i, ∑ j, psf i j) :
    calculate_strehl_ratio n psf =
      psf ⟨n / 2, Nat.div_lt_self hn one_lt_two⟩
          ⟨n / 2, Nat.div_lt_self hn one_lt_two⟩ /
        ((∑ i, ∑ j, psf i j) / (n : ℝ) ^ 2) := by
  have hnn : (0 : ℝ) < ((n * n : ℕ) : ℝ) := by
    exact_mod_cast Nat.mul_pos hn hn
  have hcast : ((n * n : ℕ) : ℝ) = (n : ℝ) ^ 2 := by push_cast; ring
  simp only [calculate_strehl_ratio, dif_pos hn]
  rw [if_pos (div_pos hsum hnn), hcast]

/-- Witness for claim C9: the constant `2 × 2` array with every entry `1`. -/
theorem calculate_strehl_ratio_spec_witness :
    calculate_strehl_ratio 2 (fun _ _ => (1 : ℝ)) =
      1 / ((∑ _i : Fin 2, ∑ _j : Fin 2, (1 : ℝ)) / (2 : ℝ) ^ 2) :=
  calculate_strehl_ratio_spec 2 (fun _ _ => 1) (by norm_num)
    (by simp [Fin.sum_univ_two])

/-! ## Claims about validation and the unit conversions -/

/-- Evaluation of the `"Diam pupil"` branch of `calculate_step_params`
(calculations.py lines 30-39 and 89-90) to an explicit record. -/
theorem csp_diam_eval (row : OpticalSystemRow) (u : String) :
    calculate_step_params row "Diam pupil" u =
      some { diam_pupil := max row.diam_pupil (1 / 1000)
             step_pupil := max row.diam_pupil (1 / 1000) / max (row.sample_size : ℚ) 1
             step_obj_can := 1 / max (max row.diam_pupil (1 / 1000) /
                 max (row.sample_size : ℚ) 1 * (row.sample_size : ℚ)) (1 / 1000)
             step_im_can := 1 / max (max row.diam_pupil (1 / 1000) /
                 max (row.sample_size : ℚ) 1 * (row.sample_size : ℚ)) (1 / 1000)
             step_obj_microns := 1 / max (max row.diam_pupil (1 / 1000) /
                 max (row.sample_size : ℚ) 1 * (row.sample_size : ℚ)) (1 / 1000) *
               max row.wavelength (1 / 1000) /
               (max row.magnification (1 / 1000) * max row.back_aperture (1 / 1000))
             step_im_microns := 1 / max (max row.diam_pupil (1 / 1000) /
                 max (row.sample_size : ℚ) 1 * (row.sample_size : ℚ)) (1 / 1000) *
               max row.wavelength (1 / 1000) / max row.back_aperture (1 / 1000) } :=
  rfl

/-- Evaluation of the `"Step image"` branch of `calculate_step_params` in
micron units (calculations.py lines 68-82 and 89-90) to an explicit
record. -/
theorem csp_image_microns_eval (row : OpticalSystemRow) :
    calculate_step_params row "Step image" "μm" =
      some { diam_pupil := 1 / max (max row.step_im_microns (1 / 1000) *
                 max row.back_aperture (1 / 1000) / max row.wavelength (1 / 1000) *
                 (row.sample_size : ℚ)) (1 / 1000) * (row.sample_size : ℚ)
             step_pupil := 1 / max (max row.step_im_microns (1 / 1000) *
                 max row.back_aperture (1 / 1000) / max row.wavelength (1 / 1000) *
                 (row.sample_size : ℚ)) (1 / 1000)
             step_obj_can := max row.step_im_microns (1 / 1000) *
                 max row.back_aperture (1 / 1000) / max row.wavelength (1 / 1000)
             step_im_can := max row.step_im_microns (1 / 1000) *
                 max row.back_aperture (1 / 1000) / max row.wavelength (1 / 1000)
             step_obj_microns := max row.step_im_microns (1 / 1000) *
                 max row.back_aperture (1 / 1000) / max row.wavelength (1 / 1000) *
               max row.wavelength (1 / 1000) /
               (max row.magnification (1 / 1000) * max row.back_aperture (1 / 1000))
             step_im_microns := max row.step_im_microns (1 / 1000) *
                 max row.back_aperture (1 / 1000) / max row.wavelength (1 / 1000) *
               max row.wavelength (1 / 1000) / max row.back_aperture (1 / 1000) } :=
  rfl


/-- Counterexample for claim C5 as stated: the user-supplied top-level input
`diam_pupil = -1` is silently floor-clamped by `calculate_step_params` — the
returned `diam_pupil` is the floor `0.001`, and no error is surfaced — so
floor-clamping is not restricted to intermediate derived quantities. -/
theorem calculate_step_params_clamps_user_input :
    rowBad.diam_pupil = -1 ∧
    (calculate_step_params rowBad "Diam pupil" "c.u.").map StepParams.diam_pupil =
      some (1 / 1000) := by
  refine ⟨rfl, ?_⟩
  rw [csp_diam_eval]
  simp only [Option.map_some']
  congr 1
  norm_num [rowBad, max_def]

/-- Claim C5 (amended): a row in which wavelength, numerical aperture,
magnification or pupil diameter is `≤ 0` fails validation in
`compute_row` — a non-empty error message is surfaced and no computation is
started; however, `calculate_step_params` does floor-clamp nonpositive
top-level user inputs (here: the pupil diameter is replaced by `0.001`),
so the clamping is not restricted to intermediate derived quantities. -/
theorem invalid_params_rejected_before_compute :
    (∀ row : OpticalSystemRow,
        row.wavelength ≤ 0 ∨ row.back_aperture ≤ 0 ∨
          row.magnification ≤ 0 ∨ row.diam_pupil ≤ 0 →
        ∃ msg, msg ≠ "" ∧
          compute_row row = RowComputeOutcome.validationError msg) ∧
    (∀ (row : OpticalSystemRow) (u : String), row.diam_pupil ≤ 0 →
        (calculate_step_params row "Diam pupil" u).map StepParams.diam_pupil =
          some (1 / 1000)) := by
  constructor
  · intro row h
    have hv : ∃ msg, msg ≠ "" ∧ validate_row_params row = (false, msg) := by
      by_cases h1 : row.wavelength ≤ 0
      · exact ⟨"Wavelength must be positive (> 0)", by decide,
          by simp [validate_row_params, h1]⟩
      · by_cases h2 : row.back_aperture ≤ 0
        · exact ⟨"NA must be positive (> 0)", by decide,
            by simp [validate_row_params, h1, h2]⟩
        · by_cases h3 : row.magnification ≤ 0
          · exact ⟨"Magnification must be positive (> 0)", by decide,
              by simp [validate_row_params, h1, h2, h3]⟩
          · have h4 : row.diam_pupil ≤ 0 := by tauto
            exact ⟨"Pupil diameter must be positive (> 0)", by decide,
              by simp [validate_row_params, h1, h2, h3, h4]⟩
    obtain ⟨msg, hne, hmsg⟩ := hv
    exact ⟨msg, hne, by simp [compute_row, hmsg]⟩
  · intro row u h
    rw [csp_diam_eval]
    simp only [Option.map_some']
    congr 1
    exact max_eq_right (h.trans (by norm_num))

/-- Witness for claim C5's amended theorem, at the concrete invalid row
`rowBad`. -/
theorem invalid_params_rejected_before_compute_witness :
    (∃ msg, msg ≠ "" ∧
        compute_row rowBad = RowComputeOutcome.validationError msg) ∧
    (calculate_step_params rowBad "Diam pupil" "c.u.").map StepParams.diam_pupil =
      some (1 / 1000) :=
  ⟨invalid_params_rejected_before_compute.1 rowBad
      (Or.inr (Or.inr (Or.inr (by norm_num [rowBad])))),
    invalid_params_rejected_before_compute.2 rowBad "c.u." (by norm_num [rowBad])⟩


/-- Claim C8: starting from `pupilDiameter = 8`, `sampleSize = 512`, the
`"Diam pupil"` branch derives `stepPupil = 8/512` and
`stepImageCanonical = 1/(stepPupil·512) = 1/8`; the derived physical step is
`stepImageCanonical · wavelength / NA = w/(8·na)`, and feeding it back
through the `"Step image"`/micron branch (which multiplies by
`NA / wavelength`) reproduces `stepImageCanonical = 1/8` exactly (hence
within `1e-9`).  The hypotheses keep the values above the `0.001` clamping
floor of `calculate_step_params`, as in any physically valid
configuration. -/
theorem calculate_step_params_roundtrip (w na : ℚ)
    (hw : 1 / 1000 ≤ w) (hna : 1 / 1000 ≤ na)
    (hmic : 1 / 1000 ≤ 1 / 8 * w / na) :
    (calculate_step_params (roundTripRow w na) "Diam pupil" "c.u.").map
        StepParams.step_im_can = some (1 / 8) ∧
    (calculate_step_params (roundTripRow w na) "Diam pupil" "c.u.").map
        StepParams.step_im_microns = some (1 / 8 * w / na) ∧
    (calculate_step_params
        { roundTripRow w na with step_im_microns := 1 / 8 * w / na }
        "Step image" "μm").map StepParams.step_im_can = some (1 / 8) := by
  have hw0 : w ≠ 0 := ne_of_gt (lt_of_lt_of_le (by norm_num) hw)
  have hna0 : na ≠ 0 := ne_of_gt (lt_of_lt_of_le (by norm_num) hna)
  have hW : max w (1 / 1000) = w := max_eq_left hw
  have hNA : max na (1 / 1000) = na := max_eq_left hna
  have hclamp : max ((1 : ℚ) / 8 * w / na) (1 / 1000) = 1 / 8 * w / na :=
    max_eq_left hmic
  have hbase : max (max ((roundTripRow w na).diam_pupil) (1 / 1000) /
      max ((roundTripRow w na).sample_size : ℚ) 1 *
      ((roundTripRow w na).sample_size : ℚ)) (1 / 1000) = 8 := by
    norm_num [roundTripRow, max_def]
  refine ⟨?_, ?_, ?_⟩
  · rw [csp_diam_eval]
    simp only [Option.map_some']
    congr 1
    rw [hbase]
  · rw [csp_diam_eval]
    simp only [Option.map_some']
    congr 1
    rw [hbase, show (roundTripRow w na).wavelength = w from rfl,
      show (roundTripRow w na).back_aperture = na from rfl, hW, hNA]
  · rw [csp_image_microns_eval]
    simp only [Option.map_some']
    congr 1
    rw [show (roundTripRow w na).back_aperture = na from rfl,
      show (roundTripRow w na).wavelength = w from rfl, hclamp, hNA, hW]
    field_simp
    ring

/-- Witness for claim C8, at the default optical parameters
`wavelength = 0.555`, `NA = 0.5`. -/
theorem calculate_step_params_roundtrip_witness :
    (calculate_step_params (roundTripRow 0.555 0.5) "Diam pupil" "c.u.").map
        StepParams.step_im_can = some (1 / 8) ∧
    (calculate_step_params (roundTripRow 0.555 0.5) "Diam pupil" "c.u.").map
        StepParams.step_im_microns = some (1 / 8 * 0.555 / 0.5) ∧
    (calculate_step_params
        { roundTripRow 0.555 0.5 with step_im_microns := 1 / 8 * 0.555 / 0.5 }
        "Step image" "μm").map StepParams.step_im_can = some (1 / 8) :=
  calculate_step_params_roundtrip 0.555 0.5 (by norm_num) (by norm_num)
    (by norm_num)

/-! ## Claim about the synthesized pupil function -/

/-- Claim C2: at every grid point with `rho2 = X² + Y² ≤ 1` the pupil value
is `exp(i·W)` with
`W = 2π (defocus (2 rho2 - 1) + astigmatism rho2 cos(2 φ))`,
`φ = atan2(X, Y)` — so its magnitude is exactly `1` and its phase is `W`
(mod 2π) — and at every grid point with `rho2 > 1` the pupil value is
exactly `0`. -/
theorem calc_pupil_function_spec (N : ℕ) (step d a : ℝ) (i j : Fin N) :
    (gridCoord N step j ^ 2 + gridCoord N step i ^ 2 ≤ 1 →
      calc_pupil_function N step d a i j =
        Complex.exp (Complex.I *
          ((2 * Real.pi *
            (d * (2 * (gridCoord N step j ^ 2 + gridCoord N step i ^ 2) - 1) +
              a * (gridCoord N step j ^ 2 + gridCoord N step i ^ 2) *
                Real.cos (2 * arctan2 (gridCoord N step j) (gridCoord N step i))) : ℝ) : ℂ)) ∧
      Complex.abs (calc_pupil_function N step d a i j) = 1) ∧
    (1 < gridCoord N step j ^ 2 + gridCoord N step i ^ 2 →
      calc_pupil_function N step d a i j = 0) := by
  constructor
  · intro h
    constructor
    · simp only [calc_pupil_function]
      rw [if_pos h, mul_one]
    · simp only [calc_pupil_function]
      rw [if_pos h, mul_one, mul_comm Complex.I _, Complex.abs_exp_ofReal_mul_I]
  · intro h
    simp only [calc_pupil_function]
    rw [if_neg (not_le.mpr h), mul_zero]

/-- Witness for claim C2, at the central grid point of a `2 × 2` grid
(`rho2 = 0 ≤ 1`). -/
theorem calc_pupil_function_spec_witness :
    calc_pupil_function 2 1 (1 / 8) (1 / 4) ⟨1, one_lt_two⟩ ⟨1, one_lt_two⟩ =
      Complex.exp (Complex.I *
        ((2 * Real.pi *
          (1 / 8 * (2 * (gridCoord 2 1 ⟨1, one_lt_two⟩ ^ 2 +
              gridCoord 2 1 ⟨1, one_lt_two⟩ ^ 2) - 1) +
            1 / 4 * (gridCoord 2 1 ⟨1, one_lt_two⟩ ^ 2 +
              gridCoord 2 1 ⟨1, one_lt_two⟩ ^ 2) *
              Real.cos (2 * arctan2 (gridCoord 2 1 ⟨1, one_lt_two⟩)
                (gridCoord 2 1 ⟨1, one_lt_two⟩))) : ℝ) : ℂ)) ∧
    Complex.abs
        (calc_pupil_function 2 1 (1 / 8) (1 / 4) ⟨1, one_lt_two⟩ ⟨1, one_lt_two⟩) =
      1 :=
  (calc_pupil_function_spec 2 1 (1 / 8) (1 / 4) ⟨1, one_lt_two⟩ ⟨1, one_lt_two⟩).1
    (by norm_num [gridCoord])

/-! ## Defocus sign symmetry

The pupil grid `coords[i] = (i - N/2) * step` is symmetric, modulo `N`, about
the index `N/2`: after the `ifftshift` recentering, the squared coordinate at
index `-j` equals the one at index `j`.  With zero astigmatism the pupil
depends on the grid only through squared coordinates, so flipping the sign of
the defocus conjugates the recentered pupil, which leaves every intensity
pixel unchanged through the DFT. -/

theorem fin_neg_val_add {N : ℕ} (j : Fin N) :
    (N : ℤ) ∣ ((-j).val : ℤ) + (j.val : ℤ) := by
  rcases Nat.eq_zero_or_pos j.val with h0 | hp
  · have hv : (-j).val = (N - j.val) % N := rfl
    rw [hv, h0]
    simp
  · have hv : (-j).val = N - j.val := by
      show (N - j.val) % N = N - j.val
      have := j.is_lt
      exact Nat.mod_eq_of_lt (by omega)
    rw [hv]
    have hle : j.val ≤ N := le_of_lt j.is_lt
    refine ⟨1, ?_⟩
    push_cast [Nat.cast_sub hle]
    ring

theorem shift_neg_sq {N : ℕ} (s : ℝ) (j : Fin N) :
    gridCoord N s (ifftshiftIdx (-j)) ^ 2 = gridCoord N s (ifftshiftIdx j) ^ 2 := by
  have hN : 0 < N := j.pos
  have hhlt : N / 2 < N := Nat.div_lt_self hN one_lt_two
  have hjlt : j.val < N := j.is_lt
  have ha : (ifftshiftIdx j).val = (j.val + N / 2) % N := rfl
  have hb : (ifftshiftIdx (-j)).val = ((N - j.val) % N + N / 2) % N := rfl
  have key : (ifftshiftIdx (-j)).val + (ifftshiftIdx j).val = 2 * (N / 2) ∨
      ((ifftshiftIdx (-j)).val = 0 ∧ (ifftshiftIdx j).val = 0) := by
    have mod2 : ∀ x : ℕ, N ≤ x → x < 2 * N → x % N = x - N := by
      intro x h1 h2
      rw [Nat.mod_eq_sub_mod h1, Nat.mod_eq_of_lt (by omega)]
    rcases Nat.eq_zero_or_pos j.val with h0 | hpos
    · left
      rw [ha, hb, h0]
      simp only [Nat.sub_zero, Nat.mod_self, Nat.zero_add]
      rw [Nat.mod_eq_of_lt hhlt]
      omega
    · have hsub : (N - j.val) % N = N - j.val := Nat.mod_eq_of_lt (by omega)
      rw [ha, hb, hsub]
      rcases lt_or_ge (j.val + N / 2) N with c1 | c1
      · rcases lt_or_ge (N - j.val + N / 2) N with c2 | c2
        · rw [Nat.mod_eq_of_lt c1, Nat.mod_eq_of_lt c2]
          omega
        · rw [Nat.mod_eq_of_lt c1, mod2 _ c2 (by omega)]
          omega
      · rcases lt_or_ge (N - j.val + N / 2) N with c2 | c2
        · rw [mod2 _ c1 (by omega), Nat.mod_eq_of_lt c2]
          omega
        · rw [mod2 _ c1 (by omega), mod2 _ c2 (by omega)]
          omega
  unfold gridCoord
  rcases key with hk | ⟨hk1, hk2⟩
  · have hcast : ((ifftshiftIdx (-j)).val : ℝ) + ((ifftshiftIdx j).val : ℝ) =
        2 * ((N / 2 : ℕ) : ℝ) := by
      exact_mod_cast congrArg (fun t : ℕ => (t : ℝ)) hk
    have hflip : ((ifftshiftIdx (-j)).val : ℝ) - ((N / 2 : ℕ) : ℝ) =
        -(((ifftshiftIdx j).val : ℝ) - ((N / 2 : ℕ) : ℝ)) := by linarith
    rw [hflip]
    ring
  · rw [hk1, hk2]

/-- With zero astigmatism the pupil function reduces to a function of the
squared grid coordinates only. -/
theorem pupil_astig_zero (N : ℕ) (s d : ℝ) (i j : Fin N) :
    calc_pupil_function N s d 0 i j =
      Complex.exp (Complex.I *
          ((2 * Real.pi * (d * (2 * (gridCoord N s j ^ 2 + gridCoord N s i ^ 2) - 1)) : ℝ) : ℂ)) *
        (if gridCoord N s j ^ 2 + gridCoord N s i ^ 2 ≤ 1 then 1 else 0) := by
  simp only [calc_pupil_function]
  have hW : ∀ r c : ℝ, 2 * Real.pi * (d * (2 * r - 1) + 0 * r * Real.cos c) =
      2 * Real.pi * (d * (2 * r - 1)) := by
    intro r c
    ring
  rw [hW]

/-- Evenness of the recentered zero-astigmatism pupil under index
negation. -/
theorem pupil_shift_even {N : ℕ} (s d : ℝ) (i j : Fin N) :
    calc_pupil_function N s d 0 (ifftshiftIdx (-i)) (ifftshiftIdx (-j)) =
      calc_pupil_function N s d 0 (ifftshiftIdx i) (ifftshiftIdx j) := by
  rw [pupil_astig_zero, pupil_astig_zero, shift_neg_sq s j, shift_neg_sq s i]

/-- Flipping the defocus sign conjugates the zero-astigmatism pupil. -/
theorem pupil_neg_defocus_conj {N : ℕ} (s d : ℝ) (i j : Fin N) :
    calc_pupil_function N s (-d) 0 i j =
      (starRingEnd ℂ) (calc_pupil_function N s d 0 i j) := by
  rw [pupil_astig_zero, pupil_astig_zero, map_mul]
  congr 1
  · rw [← Complex.exp_conj, map_mul, Complex.conj_I, Complex.conj_ofReal]
    congr 1
    rw [show (2 * Real.pi * (-d * (2 * (gridCoord N s j ^ 2 + gridCoord N s i ^ 2) - 1)) : ℝ) =
        -(2 * Real.pi * (d * (2 * (gridCoord N s j ^ 2 + gridCoord N s i ^ 2) - 1))) from by ring]
    rw [Complex.ofReal_neg]
    ring
  · rw [apply_ite (starRingEnd ℂ), map_one, map_zero]

/-- Complex conjugation negates the DFT twiddle factor. -/
theorem twiddle_neg (N : ℕ) (k : ℤ) :
    twiddle N (-k) = (starRingEnd ℂ) (twiddle N k) := by
  unfold twiddle
  rw [← Complex.exp_conj]
  congr 1
  rw [map_div₀]
  simp only [map_mul, Complex.conj_I, Complex.conj_ofReal, map_intCast, map_natCast,
    map_ofNat]
  push_cast
  ring

/-- The twiddle factor only depends on the exponent modulo `N`. -/
theorem twiddle_congr (N : ℕ) (hN : N ≠ 0) {a b : ℤ} (h : (N : ℤ) ∣ a - b) :
    twiddle N a = twiddle N b := by
  obtain ⟨k, hk⟩ := h
  have ha : a = b + N * k := by linarith
  subst ha
  unfold twiddle
  have hNC : (N : ℂ) ≠ 0 := Nat.cast_ne_zero.mpr hN
  have hsplit : 2 * (Real.pi : ℂ) * Complex.I * (((b + N * k : ℤ)) : ℂ) / (N : ℂ) =
      2 * (Real.pi : ℂ) * Complex.I * ((b : ℤ) : ℂ) / (N : ℂ) +
        (k : ℂ) * (2 * (Real.pi : ℂ) * Complex.I) := by
    push_cast
    field_simp
    ring
  rw [hsplit, Complex.exp_add, Complex.exp_int_mul_two_pi_mul_I, mul_one]

/-- The inner sum of `np.fft.ifft2` applied to the conjugate of an array that
is even under index negation equals the conjugate of the sum for the array
itself. -/
theorem ifft2_sum_conj_even {N : ℕ} [NeZero N] (B : Fin N → Fin N → ℂ)
    (hB : ∀ j1 j2, B (-j1) (-j2) = B j1 j2) (t1 t2 : ℕ) :
    (∑ j1, ∑ j2, (starRingEnd ℂ) (B j1 j2) *
        twiddle N ((t1 * j1.val + t2 * j2.val : ℕ) : ℤ)) =
      (starRingEnd ℂ) (∑ j1, ∑ j2, B j1 j2 *
        twiddle N ((t1 * j1.val + t2 * j2.val : ℕ) : ℤ)) := by
  have h1 : ∀ G : Fin N → ℂ, (∑ j, G j) = ∑ j, G (-j) := fun G =>
    (Fintype.sum_equiv (Equiv.neg (Fin N)) (fun j => G (-j)) G (fun x => rfl)).symm
  have key : ∀ j1 j2 : Fin N,
      (starRingEnd ℂ) (B (-j1) (-j2)) *
          twiddle N ((t1 * (-j1).val + t2 * (-j2).val : ℕ) : ℤ) =
        (starRingEnd ℂ) (B j1 j2) *
          twiddle N (-((t1 * j1.val + t2 * j2.val : ℕ) : ℤ)) := by
    intro j1 j2
    rw [hB]
    congr 1
    apply twiddle_congr N (NeZero.ne N)
    have hsplit : ((t1 * (-j1).val + t2 * (-j2).val : ℕ) : ℤ) -
        (-((t1 * j1.val + t2 * j2.val : ℕ) : ℤ)) =
        (t1 : ℤ) * (((-j1).val : ℤ) + (j1.val : ℤ)) +
          (t2 : ℤ) * (((-j2).val : ℤ) + (j2.val : ℤ)) := by
      push_cast
      ring
    rw [hsplit]
    exact dvd_add (Dvd.dvd.mul_left (fin_neg_val_add j1) _)
      (Dvd.dvd.mul_left (fin_neg_val_add j2) _)
  calc
    (∑ j1, ∑ j2, (starRingEnd ℂ) (B j1 j2) *
        twiddle N ((t1 * j1.val + t2 * j2.val : ℕ) : ℤ))
      = ∑ j1, ∑ j2, (starRingEnd ℂ) (B (-j1) (-j2)) *
          twiddle N ((t1 * (-j1).val + t2 * (-j2).val : ℕ) : ℤ) := by
        rw [h1 (fun j1 => ∑ j2, (starRingEnd ℂ) (B j1 j2) *
          twiddle N ((t1 * j1.val + t2 * j2.val : ℕ) : ℤ))]
        refine Finset.sum_congr rfl fun j1 _ => ?_
        exact h1 (fun j2 => (starRingEnd ℂ) (B (-j1) j2) *
          twiddle N ((t1 * (-j1).val + t2 * j2.val : ℕ) : ℤ))
    _ = ∑ j1, ∑ j2, (starRingEnd ℂ) (B j1 j2) *
          twiddle N (-((t1 * j1.val + t2 * j2.val : ℕ) : ℤ)) := by
        exact Finset.sum_congr rfl fun j1 _ =>
          Finset.sum_congr rfl fun j2 _ => key j1 j2
    _ = (starRingEnd ℂ) (∑ j1, ∑ j2, B j1 j2 *
          twiddle N ((t1 * j1.val + t2 * j2.val : ℕ) : ℤ)) := by
        rw [map_sum]
        refine Finset.sum_congr rfl fun j1 _ => ?_
        rw [map_sum]
        refine Finset.sum_congr rfl fun j2 _ => ?_
        rw [map_mul, ← twiddle_neg]

/-- Flipping the defocus sign conjugates the whole propagated field when the
astigmatism is zero. -/
theorem field_neg_defocus_conj (p : PSFParams) (hsize : 0 < p.size)
    (ha : p.astigmatism = 0) (m1 m2 : Fin p.size) :
    fieldFn { p with defocus := -p.defocus } m1 m2 =
      (starRingEnd ℂ) (fieldFn p m1 m2) := by
  haveI : NeZero p.size := ⟨Nat.pos_iff_ne_zero.mp hsize⟩
  have hpa : ({ p with defocus := -p.defocus } : PSFParams).astigmatism = 0 := ha
  simp only [fieldFn, npFftshift2, npIfft2, npIfftshift2]
  rw [show stepPupil { p with defocus := -p.defocus } = stepPupil p from rfl,
    show stepObjCan { p with defocus := -p.defocus } = stepObjCan p from rfl,
    hpa]
  rw [map_mul, map_mul, Complex.conj_ofReal]
  congr 1
  congr 1
  · rw [map_div₀, map_one, map_pow, map_natCast]
  · have hconj : ∀ j1 j2 : Fin p.size,
        calc_pupil_function p.size (stepPupil p) (-p.defocus) 0
            (ifftshiftIdx j1) (ifftshiftIdx j2) =
          (starRingEnd ℂ) (calc_pupil_function p.size (stepPupil p) p.defocus 0
            (ifftshiftIdx j1) (ifftshiftIdx j2)) := fun j1 j2 =>
      pupil_neg_defocus_conj _ _ _ _
    simp only [hconj]
    exact ifft2_sum_conj_even
      (fun j1 j2 => calc_pupil_function p.size (stepPupil p) p.defocus 0
        (ifftshiftIdx j1) (ifftshiftIdx j2))
      (fun j1 j2 => pupil_shift_even _ _ _ _)
      (fftshiftIdx m1).val (fftshiftIdx m2).val

/-- Flipping the defocus sign leaves the raw intensity unchanged when the
astigmatism is zero. -/
theorem rawIntensity_neg_defocus (p : PSFParams) (hsize : 0 < p.size)
    (ha : p.astigmatism = 0) :
    rawIntensity { p with defocus := -p.defocus } = rawIntensity p := by
  funext m1 m2
  simp only [rawIntensity]
  rw [field_neg_defocus_conj p hsize ha, Complex.abs_conj]

/-- Claim C3 (amended): for every valid parameter set with zero astigmatism,
`compute` with defocus `d` and with defocus `-d` produce pixel-wise identical
PSF arrays (exactly, in real arithmetic).  With nonzero astigmatism the
identity fails, see the counterexample. -/
theorem computePSF_defocus_sign (p : PSFParams)
    (hsize : 0 < p.size) (hw : 0 < p.wavelength) (hna : 0 < p.back_aperture)
    (hmag : 0 < p.magnification) (hdiam : 0 < p.diam_pupil)
    (ha : p.astigmatism = 0) :
    computePSF { p with defocus := -p.defocus } = computePSF p := by
  simp only [computePSF]
  rw [rawIntensity_neg_defocus p hsize ha]

/-- Witness for claim C3's amended theorem: size 2, unit parameters,
defocus `1/8`, zero astigmatism. -/
theorem computePSF_defocus_sign_witness :
    computePSF { pFix with defocus := -pFix.defocus } = computePSF pFix :=
  computePSF_defocus_sign pFix (by norm_num [pFix]) (by norm_num [pFix])
    (by norm_num [pFix]) (by norm_num [pFix]) (by norm_num [pFix])
    (by norm_num [pFix])

/-! ## Concrete evaluation of the size-2 pipeline

These lemmas evaluate `computePSF` exactly at `sampleSize = 2`,
`pupilDiameter = 2` for defocus `±1/8` and astigmatism `1/4`, exhibiting a
pixel where the defocus sign symmetry fails when the astigmatism is
nonzero. -/
theorem ifftshiftIdx_two_zero : ifftshiftIdx (0 : Fin 2) = 1 := by decide
theorem ifftshiftIdx_two_one : ifftshiftIdx (1 : Fin 2) = 0 := by decide
theorem fftshiftIdx_two_zero : fftshiftIdx (0 : Fin 2) = 1 := by decide
theorem fftshiftIdx_two_one : fftshiftIdx (1 : Fin 2) = 0 := by decide

theorem gridCoord_two_left : gridCoord 2 1 (0 : Fin 2) = -1 := by
  norm_num [gridCoord]

theorem gridCoord_two_center : gridCoord 2 1 (1 : Fin 2) = 0 := by
  norm_num [gridCoord]

theorem arctan2_zero_negone : arctan2 0 (-1) = Real.pi := by
  unfold arctan2
  rw [show (⟨-1, 0⟩ : ℂ) = (-1 : ℂ) from by apply Complex.ext <;> simp]
  exact Complex.arg_neg_one

theorem arctan2_negone_zero : arctan2 (-1) 0 = -(Real.pi / 2) := by
  unfold arctan2
  rw [show (⟨0, -1⟩ : ℂ) = -Complex.I from by apply Complex.ext <;> simp]
  exact Complex.arg_neg_I

theorem arctan2_zero_zero : arctan2 0 0 = 0 := by
  unfold arctan2
  rw [show (⟨0, 0⟩ : ℂ) = 0 from by apply Complex.ext <;> simp]
  exact Complex.arg_zero

theorem pupil_two_vals (d a : ℝ) :
    calc_pupil_function 2 1 d a 0 0 = 0 ∧
    calc_pupil_function 2 1 d a 0 1 =
      Complex.exp (Complex.I * ((2 * Real.pi * (d + a) : ℝ) : ℂ)) ∧
    calc_pupil_function 2 1 d a 1 0 =
      Complex.exp (Complex.I * ((2 * Real.pi * (d - a) : ℝ) : ℂ)) ∧
    calc_pupil_function 2 1 d a 1 1 =
      Complex.exp (Complex.I * ((2 * Real.pi * (-d) : ℝ) : ℂ)) := by
  refine ⟨?_, ?_, ?_, ?_⟩
  · simp only [calc_pupil_function, gridCoord_two_left]
    rw [if_neg (by norm_num), mul_zero]
  · simp only [calc_pupil_function, gridCoord_two_left, gridCoord_two_center]
    rw [if_pos (by norm_num), mul_one, arctan2_zero_negone, Real.cos_two_pi]
    congr 1
    push_cast
    ring
  · simp only [calc_pupil_function, gridCoord_two_left, gridCoord_two_center]
    rw [if_pos (by norm_num), mul_one, arctan2_negone_zero]
    rw [show 2 * -(Real.pi / 2) = -Real.pi from by ring, Real.cos_neg, Real.cos_pi]
    congr 1
    push_cast
    ring
  · simp only [calc_pupil_function, gridCoord_two_center]
    rw [if_pos (by norm_num), mul_one, arctan2_zero_zero]
    norm_num

theorem twiddle_two_zero : twiddle 2 0 = 1 := by
  unfold twiddle
  norm_num [Complex.exp_zero]

theorem twiddle_two_one : twiddle 2 1 = -1 := by
  unfold twiddle
  rw [show 2 * (Real.pi : ℂ) * Complex.I * ((1 : ℤ) : ℂ) / ((2 : ℕ) : ℂ) =
      (Real.pi : ℂ) * Complex.I from by push_cast; ring]
  exact Complex.exp_pi_mul_I

theorem twiddle_two_two : twiddle 2 2 = 1 := by
  unfold twiddle
  rw [show 2 * (Real.pi : ℂ) * Complex.I * ((2 : ℤ) : ℂ) / ((2 : ℕ) : ℂ) =
      2 * (Real.pi : ℂ) * Complex.I from by push_cast; ring]
  exact Complex.exp_two_pi_mul_I

theorem field01 (wl na mag d a : ℝ) :
    fieldFn ⟨2, wl, na, mag, d, a, 2⟩ 0 1 =
      (calc_pupil_function 2 1 d a 1 1 + calc_pupil_function 2 1 d a 1 0 -
        calc_pupil_function 2 1 d a 0 1 - calc_pupil_function 2 1 d a 0 0) / 2 := by
  have hstep : stepPupil ⟨2, wl, na, mag, d, a, 2⟩ = 1 := by
    norm_num [stepPupil]
  have hso : stepObjCan ⟨2, wl, na, mag, d, a, 2⟩ = 1 / 2 := by
    norm_num [stepObjCan, stepPupil]
  simp only [fieldFn, npFftshift2, npIfftshift2, npIfft2, Fin.sum_univ_two,
    fftshiftIdx_two_zero, fftshiftIdx_two_one, ifftshiftIdx_two_zero, ifftshiftIdx_two_one, Fin.val_zero, Fin.val_one]
  rw [hstep, hso]
  norm_num [twiddle_two_zero, twiddle_two_one, twiddle_two_two]
  ring

theorem field00 (wl na mag d a : ℝ) :
    fieldFn ⟨2, wl, na, mag, d, a, 2⟩ 0 0 =
      (calc_pupil_function 2 1 d a 1 1 - calc_pupil_function 2 1 d a 1 0 -
        calc_pupil_function 2 1 d a 0 1 + calc_pupil_function 2 1 d a 0 0) / 2 := by
  have hstep : stepPupil ⟨2, wl, na, mag, d, a, 2⟩ = 1 := by
    norm_num [stepPupil]
  have hso : stepObjCan ⟨2, wl, na, mag, d, a, 2⟩ = 1 / 2 := by
    norm_num [stepObjCan, stepPupil]
  simp only [fieldFn, npFftshift2, npIfftshift2, npIfft2, Fin.sum_univ_two,
    fftshiftIdx_two_zero, fftshiftIdx_two_one, ifftshiftIdx_two_zero, ifftshiftIdx_two_one, Fin.val_zero, Fin.val_one]
  rw [hstep, hso]
  norm_num [twiddle_two_zero, twiddle_two_one, twiddle_two_two]
  ring

theorem field10 (wl na mag d a : ℝ) :
    fieldFn ⟨2, wl, na, mag, d, a, 2⟩ 1 0 =
      (calc_pupil_function 2 1 d a 1 1 - calc_pupil_function 2 1 d a 1 0 +
        calc_pupil_function 2 1 d a 0 1 - calc_pupil_function 2 1 d a 0 0) / 2 := by
  have hstep : stepPupil ⟨2, wl, na, mag, d, a, 2⟩ = 1 := by
    norm_num [stepPupil]
  have hso : stepObjCan ⟨2, wl, na, mag, d, a, 2⟩ = 1 / 2 := by
    norm_num [stepObjCan, stepPupil]
  simp only [fieldFn, npFftshift2, npIfftshift2, npIfft2, Fin.sum_univ_two,
    fftshiftIdx_two_zero, fftshiftIdx_two_one, ifftshiftIdx_two_zero, ifftshiftIdx_two_one, Fin.val_zero, Fin.val_one]
  rw [hstep, hso]
  norm_num [twiddle_two_zero, twiddle_two_one, twiddle_two_two]
  ring

theorem field11 (wl na mag d a : ℝ) :
    fieldFn ⟨2, wl, na, mag, d, a, 2⟩ 1 1 =
      (calc_pupil_function 2 1 d a 1 1 + calc_pupil_function 2 1 d a 1 0 +
        calc_pupil_function 2 1 d a 0 1 + calc_pupil_function 2 1 d a 0 0) / 2 := by
  have hstep : stepPupil ⟨2, wl, na, mag, d, a, 2⟩ = 1 := by
    norm_num [stepPupil]
  have hso : stepObjCan ⟨2, wl, na, mag, d, a, 2⟩ = 1 / 2 := by
    norm_num [stepObjCan, stepPupil]
  simp only [fieldFn, npFftshift2, npIfftshift2, npIfft2, Fin.sum_univ_two,
    fftshiftIdx_two_zero, fftshiftIdx_two_one, ifftshiftIdx_two_zero, ifftshiftIdx_two_one, Fin.val_zero, Fin.val_one]
  rw [hstep, hso]
  norm_num [twiddle_two_zero, twiddle_two_one, twiddle_two_two]
  ring

theorem exp_I_flip (x y : ℝ) (k : ℤ) (h : x = y + (2 * k + 1) * Real.pi) :
    Complex.exp (Complex.I * (x : ℝ)) = -Complex.exp (Complex.I * (y : ℝ)) := by
  subst h
  rw [show Complex.I * (((y + (2 * (k : ℝ) + 1) * Real.pi : ℝ)) : ℂ) =
      Complex.I * (y : ℝ) + ((k : ℂ) * (2 * (Real.pi : ℂ) * Complex.I) +
        (Real.pi : ℂ) * Complex.I) from by push_cast; ring]
  rw [Complex.exp_add, Complex.exp_add, Complex.exp_int_mul_two_pi_mul_I,
    Complex.exp_pi_mul_I]
  ring

theorem exp_I_congr (x y : ℝ) (h : x = y) :
    Complex.exp (Complex.I * (x : ℝ)) = Complex.exp (Complex.I * (y : ℝ)) := by
  rw [h]

theorem abs_real_mul_expI (c θ : ℝ) :
    Complex.abs ((c : ℂ) * Complex.exp (Complex.I * (θ : ℝ))) = |c| := by
  rw [map_mul, Complex.abs_ofReal, mul_comm Complex.I _, Complex.abs_exp_ofReal_mul_I,
    mul_one]

theorem computePSF_pos_eighth :
    computePSF ⟨2, 0.555, 0.5, 1, 1/8, 1/4, 2⟩ 0 1 = 3 / 4 := by
  have h1 := (pupil_two_vals (1/8) (1/4)).1
  have h2 := (pupil_two_vals (1/8) (1/4)).2.1
  have h3 := (pupil_two_vals (1/8) (1/4)).2.2.1
  have h4 := (pupil_two_vals (1/8) (1/4)).2.2.2
  have e10 : Complex.exp (Complex.I * ((2 * Real.pi * (1/8 - 1/4) : ℝ) : ℂ)) =
      Complex.exp (Complex.I * ((2 * Real.pi * (-(1/8)) : ℝ) : ℂ)) :=
    exp_I_congr _ _ (by ring)
  have e01 : Complex.exp (Complex.I * ((2 * Real.pi * (1/8 + 1/4) : ℝ) : ℂ)) =
      -Complex.exp (Complex.I * ((2 * Real.pi * (-(1/8)) : ℝ) : ℂ)) :=
    exp_I_flip _ _ 0 (by push_cast; ring)
  have hz00 : fieldFn ⟨2, 0.555, 0.5, 1, 1/8, 1/4, 2⟩ 0 0 =
      ((1/2 : ℝ) : ℂ) * Complex.exp (Complex.I * ((2 * Real.pi * (-(1/8)) : ℝ) : ℂ)) := by
    rw [field00, h4, h3, h2, h1, e10, e01]
    push_cast
    ring
  have hz01 : fieldFn ⟨2, 0.555, 0.5, 1, 1/8, 1/4, 2⟩ 0 1 =
      ((3/2 : ℝ) : ℂ) * Complex.exp (Complex.I * ((2 * Real.pi * (-(1/8)) : ℝ) : ℂ)) := by
    rw [field01, h4, h3, h2, h1, e10, e01]
    push_cast
    ring
  have hz10 : fieldFn ⟨2, 0.555, 0.5, 1, 1/8, 1/4, 2⟩ 1 0 =
      ((-(1/2) : ℝ) : ℂ) * Complex.exp (Complex.I * ((2 * Real.pi * (-(1/8)) : ℝ) : ℂ)) := by
    rw [field10, h4, h3, h2, h1, e10, e01]
    push_cast
    ring
  have hz11 : fieldFn ⟨2, 0.555, 0.5, 1, 1/8, 1/4, 2⟩ 1 1 =
      ((1/2 : ℝ) : ℂ) * Complex.exp (Complex.I * ((2 * Real.pi * (-(1/8)) : ℝ) : ℂ)) := by
    rw [field11, h4, h3, h2, h1, e10, e01]
    push_cast
    ring
  have hI00 : rawIntensity ⟨2, 0.555, 0.5, 1, 1/8, 1/4, 2⟩ 0 0 = 1/4 := by
    simp only [rawIntensity]
    rw [hz00, abs_real_mul_expI]
    norm_num
  have hI01 : rawIntensity ⟨2, 0.555, 0.5, 1, 1/8, 1/4, 2⟩ 0 1 = 9/4 := by
    simp only [rawIntensity]
    rw [hz01, abs_real_mul_expI]
    norm_num
  have hI10 : rawIntensity ⟨2, 0.555, 0.5, 1, 1/8, 1/4, 2⟩ 1 0 = 1/4 := by
    simp only [rawIntensity]
    rw [hz10, abs_real_mul_expI]
    norm_num
  have hI11 : rawIntensity ⟨2, 0.555, 0.5, 1, 1/8, 1/4, 2⟩ 1 1 = 1/4 := by
    simp only [rawIntensity]
    rw [hz11, abs_real_mul_expI]
    norm_num
  have htot : (∑ a, ∑ b, rawIntensity ⟨2, 0.555, 0.5, 1, 1/8, 1/4, 2⟩ a b) = 3 := by
    rw [Fin.sum_univ_two]
    rw [Fin.sum_univ_two, Fin.sum_univ_two]
    rw [hI00, hI01, hI10, hI11]
    norm_num
  have hpos : 0 < ∑ a, ∑ b, rawIntensity ⟨2, 0.555, 0.5, 1, 1/8, 1/4, 2⟩ a b := by
    rw [htot]
    norm_num
  simp only [computePSF, normalizeEnergy]
  rw [if_pos hpos]
  show rawIntensity ⟨2, 0.555, 0.5, 1, 1/8, 1/4, 2⟩ 0 1 /
      (∑ a, ∑ b, rawIntensity ⟨2, 0.555, 0.5, 1, 1/8, 1/4, 2⟩ a b) = 3/4
  rw [hI01, htot]
  norm_num

theorem computePSF_neg_eighth :
    computePSF ⟨2, 0.555, 0.5, 1, -(1/8), 1/4, 2⟩ 0 1 = 1 / 12 := by
  have h1 := (pupil_two_vals (-(1/8)) (1/4)).1
  have h2 := (pupil_two_vals (-(1/8)) (1/4)).2.1
  have h3 := (pupil_two_vals (-(1/8)) (1/4)).2.2.1
  have h4 := (pupil_two_vals (-(1/8)) (1/4)).2.2.2
  have e11 : Complex.exp (Complex.I * ((2 * Real.pi * (-(-(1/8))) : ℝ) : ℂ)) =
      Complex.exp (Complex.I * ((2 * Real.pi * (1/8) : ℝ) : ℂ)) :=
    exp_I_congr _ _ (by ring)
  have e01 : Complex.exp (Complex.I * ((2 * Real.pi * (-(1/8) + 1/4) : ℝ) : ℂ)) =
      Complex.exp (Complex.I * ((2 * Real.pi * (1/8) : ℝ) : ℂ)) :=
    exp_I_congr _ _ (by ring)
  have e10 : Complex.exp (Complex.I * ((2 * Real.pi * (-(1/8) - 1/4) : ℝ) : ℂ)) =
      -Complex.exp (Complex.I * ((2 * Real.pi * (1/8) : ℝ) : ℂ)) :=
    exp_I_flip _ _ (-1) (by push_cast; ring)
  have hz00 : fieldFn ⟨2, 0.555, 0.5, 1, -(1/8), 1/4, 2⟩ 0 0 =
      ((1/2 : ℝ) : ℂ) * Complex.exp (Complex.I * ((2 * Real.pi * (1/8) : ℝ) : ℂ)) := by
    rw [field00, h4, h3, h2, h1, e11, e01, e10]
    push_cast
    ring
  have hz01 : fieldFn ⟨2, 0.555, 0.5, 1, -(1/8), 1/4, 2⟩ 0 1 =
      ((-(1/2) : ℝ) : ℂ) * Complex.exp (Complex.I * ((2 * Real.pi * (1/8) : ℝ) : ℂ)) := by
    rw [field01, h4, h3, h2, h1, e11, e01, e10]
    push_cast
    ring
  have hz10 : fieldFn ⟨2, 0.555, 0.5, 1, -(1/8), 1/4, 2⟩ 1 0 =
      ((3/2 : ℝ) : ℂ) * Complex.exp (Complex.I * ((2 * Real.pi * (1/8) : ℝ) : ℂ)) := by
    rw [field10, h4, h3, h2, h1, e11, e01, e10]
    push_cast
    ring
  have hz11 : fieldFn ⟨2, 0.555, 0.5, 1, -(1/8), 1/4, 2⟩ 1 1 =
      ((1/2 : ℝ) : ℂ) * Complex.exp (Complex.I * ((2 * Real.pi * (1/8) : ℝ) : ℂ)) := by
    rw [field11, h4, h3, h2, h1, e11, e01, e10]
    push_cast
    ring
  have hI00 : rawIntensity ⟨2, 0.555, 0.5, 1, -(1/8), 1/4, 2⟩ 0 0 = 1/4 := by
    simp only [rawIntensity]
    rw [hz00, abs_real_mul_expI]
    norm_num
  have hI01 : rawIntensity ⟨2, 0.555, 0.5, 1, -(1/8), 1/4, 2⟩ 0 1 = 1/4 := by
    simp only [rawIntensity]
    rw [hz01, abs_real_mul_expI]
    norm_num
  have hI10 : rawIntensity ⟨2, 0.555, 0.5, 1, -(1/8), 1/4, 2⟩ 1 0 = 9/4 := by
    simp only [rawIntensity]
    rw [hz10, abs_real_mul_expI]
    norm_num
  have hI11 : rawIntensity ⟨2, 0.555, 0.5, 1, -(1/8), 1/4, 2⟩ 1 1 = 1/4 := by
    simp only [rawIntensity]
    rw [hz11, abs_real_mul_expI]
    norm_num
  have htot : (∑ a, ∑ b, rawIntensity ⟨2, 0.555, 0.5, 1, -(1/8), 1/4, 2⟩ a b) = 3 := by
    rw [Fin.sum_univ_two]
    rw [Fin.sum_univ_two, Fin.sum_univ_two]
    rw [hI00, hI01, hI10, hI11]
    norm_num
  have hpos : 0 < ∑ a, ∑ b, rawIntensity ⟨2, 0.555, 0.5, 1, -(1/8), 1/4, 2⟩ a b := by
    rw [htot]
    norm_num
  simp only [computePSF, normalizeEnergy]
  rw [if_pos hpos]
  show rawIntensity ⟨2, 0.555, 0.5, 1, -(1/8), 1/4, 2⟩ 0 1 /
      (∑ a, ∑ b, rawIntensity ⟨2, 0.555, 0.5, 1, -(1/8), 1/4, 2⟩ a b) = 1/12
  rw [hI01, htot]
  norm_num

/-- Counterexample for claim C3 as stated: with nonzero astigmatism (`1/4`),
`compute` with defocus `1/8` and with defocus `-1/8` (all other parameters
equal: size 2, wavelength `0.555`, NA `0.5`, magnification `1`, pupil
diameter `2`) differ at pixel `(0, 1)`: the values are exactly `3/4` and
`1/12` — far beyond floating-point tolerance. -/
theorem computePSF_defocus_sign_fails :
    computePSF ⟨2, 0.555, 0.5, 1, 1/8, 1/4, 2⟩ 0 1 ≠
      computePSF ⟨2, 0.555, 0.5, 1, -(1/8), 1/4, 2⟩ 0 1 := by
  rw [computePSF_pos_eighth, computePSF_neg_eighth]
  norm_num
